import Mathlib

/-!
Verification of the `clearlinux-cli` setup wizard (`src/main.go`).

The development shallowly embeds the three pure components of the program —
the environment prober `getLanguageVersion`, the version catalog
`getAvailableVersions`, and the editor catalog `getLanguageEditors` — together
with the fragment of `main` that turns a probe outcome into the note shown to
the user.  Go's string primitives (`strings.Split` with a single-space
separator, `strings.TrimSpace`, `strings.TrimPrefix`) are modelled as
executable functions over the character list of a `String`.  The operating
system is abstracted into an `Env` record supplying `exec.LookPath` and
`cmd.Run`; a ghost `spawned` flag records whether the probe reached the
`cmd.Run` call.
-/

/-- Model of Go `strings.Split(s, sep)` for a one-character separator, over
character lists: the fields between consecutive separators, empty fields kept,
always at least one field. -/
def splitCh (sep : Char) : List Char → List (List Char)
  | [] => [[]]
  | c :: cs =>
    if c = sep then [] :: splitCh sep cs
    else
      match splitCh sep cs with
      | [] => [[c]]
      | f :: r => (c :: f) :: r

/-- Model of Go `strings.Split(s, " ")` on strings. -/
def goSplitSpace (s : String) : List String :=
  (splitCh ' ' s.data).map String.mk

/-- The ASCII white-space test used by Go `unicode.IsSpace` on the outputs the
program handles (space, tab, newline, vertical tab, form feed, carriage
return). -/
def goIsSpace (c : Char) : Bool :=
  (c == ' ') || (c == '\t') || (c == '\n') || (c == '\x0b') || (c == '\x0c') || (c == '\x0d')

/-- Model of Go `strings.TrimSpace`: drop white space from both ends. -/
def goTrimSpace (s : String) : String :=
  ⟨((s.data.dropWhile goIsSpace).reverse.dropWhile goIsSpace).reverse⟩

/-- Model of Go `strings.TrimPrefix(s, "v")`: remove one leading `'v'` when
present, otherwise return the string unchanged. -/
def goStripLeadingV (s : String) : String :=
  match s.data with
  | c :: rest => if c = 'v' then ⟨rest⟩ else s
  | [] => s

/-- The normalization performed by the prober at `main.go:57`:
`strings.Split(language, " ")[0]` (drop the decorative emoji suffix). -/
def probeNormalize (language : String) : String :=
  (goSplitSpace language)[0]!

/-- The normalization performed by the version catalog at `main.go:134`:
`strings.Split(language, " ")[0]`. -/
def versionsNormalize (language : String) : String :=
  (goSplitSpace language)[0]!

/-- The normalization performed by the editor catalog at `main.go:148`:
`strings.Split(language, " ")[0]`. -/
def editorsNormalize (language : String) : String :=
  (goSplitSpace language)[0]!

lemma splitCh_head_takeWhile (sep : Char) :
    ∀ l : List Char, ∃ r, splitCh sep l = l.takeWhile (fun c => !(c == sep)) :: r := by
  intro l
  induction l with
  | nil => exact ⟨[], rfl⟩
  | cons c cs ih =>
    by_cases hc : c = sep
    · subst hc
      refine ⟨splitCh c cs, ?_⟩
      simp [splitCh, List.takeWhile_cons]
    · obtain ⟨r, hr⟩ := ih
      refine ⟨r, ?_⟩
      simp [splitCh, hc, hr, List.takeWhile_cons]

lemma probeNormalize_eq_takeWhile (s : String) :
    probeNormalize s = ⟨s.data.takeWhile (fun c => !(c == ' '))⟩ := by
  obtain ⟨r, hr⟩ := splitCh_head_takeWhile ' ' s.data
  simp [probeNormalize, goSplitSpace, hr]

lemma probeNormalize_idem (s : String) :
    probeNormalize (probeNormalize s) = probeNormalize s := by
  rw [probeNormalize_eq_takeWhile s, probeNormalize_eq_takeWhile]
  simp [List.takeWhile_idem]

/-- The probe error kinds of section 7 of the spec, each carrying the message
or cause the Go code attaches to it. -/
inductive ProbeError where
  | unsupportedLanguage (message : String)
  | notFound (message : String)
  | executionFailed (cause : String)
deriving DecidableEq

/-- Abstraction of the operating system as seen by the prober: `lookPath`
models `exec.LookPath` (the resolved path of an executable name, if any) and
`run` models `cmd.Run` (captured stdout on success, the error cause on
failure). -/
structure Env where
  lookPath : String → Option String
  run : String → List String → Except String String

/-- The triple returned by `getLanguageVersion` (`version`, `path`, `err`,
with `err = none` meaning success), plus a ghost flag `spawned` recording
whether the call reached `cmd.Run` — i.e. whether a child process was
started. -/
structure ProbeResult where
  version : String
  path : String
  err : Option ProbeError
  spawned : Bool
deriving DecidableEq

/-- The `switch language` at `main.go:59-72`: the version-check command
(name and arguments) for each supported normalized language name. -/
def versionCommand (language : String) : Option (String × List String) :=
  if language = "Python" then some ("python3", ["--version"])
  else if language = "JavaScript" then some ("node", ["--version"])
  else if language = "Go" then some ("go", ["version"])
  else if language = "Rust" then some ("rustc", ["--version"])
  else if language = "Java" then some ("java", ["--version"])
  else none

/-- Embedding of `getLanguageVersion` (`main.go:52-99`): normalize the label,
select the version-check command, resolve the executable on the search path,
run it, and post-process the trimmed stdout (Python: second space-split field
when there are at least two; JavaScript: strip one leading `v`). -/
def getLanguageVersion (env : Env) (language : String) : ProbeResult :=
  let lang := probeNormalize language
  match versionCommand lang with
  | none =>
    ⟨"", "", some (ProbeError.unsupportedLanguage ("unsupported language: " ++ lang)), false⟩
  | some (name, args) =>
    match env.lookPath name with
    | none => ⟨"", "", some (ProbeError.notFound "not found in PATH"), false⟩
    | some path =>
      match env.run name args with
      | Except.error cause => ⟨"", "", some (ProbeError.executionFailed cause), true⟩
      | Except.ok out =>
        let version := goTrimSpace out
        let version :=
          if lang = "Python" then
            let parts := goSplitSpace version
            if parts.length ≥ 2 then parts[1]! else version
          else if lang = "JavaScript" then goStripLeadingV version
          else version
        ⟨version, path, none, true⟩

/-- The five supported language names, as matched after normalization. -/
def supportedLanguages : List String :=
  ["Python", "JavaScript", "Go", "Rust", "Java"]

/-- The `"Python"` entry of the version table at `main.go:104-109`. -/
def pythonVersions : List String :=
  ["3.12.1 (Latest)", "3.11.7 (LTS)", "3.10.13", "3.9.18"]

/-- The `"JavaScript"` entry of the version table at `main.go:110-115`. -/
def javascriptVersions : List String :=
  ["20.11.0 (Latest)", "18.19.0 (LTS)", "16.20.2", "14.21.3"]

/-- The `"Go"` entry of the version table at `main.go:116-121`. -/
def goVersions : List String :=
  ["1.22.0 (Latest)", "1.21.6 (LTS)", "1.20.12", "1.19.13"]

/-- The `"Rust"` entry of the version table at `main.go:122-126`. -/
def rustVersions : List String :=
  ["1.75.0 (Latest)", "1.74.1", "1.73.0"]

/-- The `"Java"` entry of the version table at `main.go:127-131`. -/
def javaVersions : List String :=
  ["21.0.2 (Latest)", "17.0.10 (LTS)", "11.0.22"]

/-- Embedding of `getAvailableVersions` (`main.go:102-136`): normalize the
label and look it up in the static version table; a Go map lookup of an
absent key yields the zero value, i.e. the empty list. -/
def getAvailableVersions (language : String) : List String :=
  let key := versionsNormalize language
  if key = "Python" then pythonVersions
  else if key = "JavaScript" then javascriptVersions
  else if key = "Go" then goVersions
  else if key = "Rust" then rustVersions
  else if key = "Java" then javaVersions
  else []

/-- Model of a `huh.Option[string]`: display label, value, and the selected
flag set by `.Selected(true)`. -/
structure EditorOption where
  label : String
  value : String
  selected : Bool
deriving DecidableEq

/-- The base editors of `getLanguageEditors` (`main.go:141-145`), the first
entry pre-selected. -/
def baseEditors : List EditorOption :=
  [⟨"VS Code 💻", "VS Code", true⟩,
   ⟨"Neovim 🔮", "Neovim", false⟩,
   ⟨"Sublime Text ✨", "Sublime Text", false⟩]

/-- Embedding of `getLanguageEditors` (`main.go:139-169`): the base editors,
with one language-specific editor appended for Python, Go, JavaScript and
Java; every other normalized name gets the base list. -/
def getLanguageEditors (language : String) : List EditorOption :=
  let key := editorsNormalize language
  if key = "Python" then baseEditors ++ [⟨"PyCharm 🐍", "PyCharm", false⟩]
  else if key = "Go" then baseEditors ++ [⟨"GoLand 🎯", "GoLand", false⟩]
  else if key = "JavaScript" then baseEditors ++ [⟨"WebStorm 🌐", "WebStorm", false⟩]
  else if key = "Java" then baseEditors ++ [⟨"IntelliJ IDEA ☕", "IntelliJ IDEA", false⟩]
  else baseEditors

/-- The mutable fields of `Language` written by the probe note
(`main.go:29-30`, `main.go:194-195`). -/
structure LangState where
  currentVer : String
  path : String
deriving DecidableEq

/-- The text of the note title shown when probing fails (`main.go:198`),
without the terminal styling. -/
def noInstallMsg : String := "No existing installation found"

/-- Embedding of the `TitleFunc` of the probe note (`main.go:190-199`): on a
successful probe it stores version and path in the session state and reports
the installation as found; on any probe error it leaves the state untouched
and reports that no installation exists.  The function is total — a probe
failure produces a note, never a program exit. -/
def versionNoteTitle (env : Env) (langType : String) (st : LangState) :
    LangState × String :=
  let r := getLanguageVersion env langType
  match r.err with
  | none => (⟨r.version, r.path⟩, "Found " ++ langType ++ " installation:")
  | some _ => (st, noInstallMsg)

/-- An environment on which no executable resolves. -/
def envAbsent : Env :=
  ⟨fun _ => none, fun _ _ => Except.error "exec: no such file"⟩

/-- An environment on which exactly `name` resolves to `path` and every run
succeeds printing `out`. -/
def envRuns (name path out : String) : Env :=
  ⟨fun n => if n = name then some path else none, fun _ _ => Except.ok out⟩

/-- An environment on which exactly `name` resolves to `path` and every run
fails with `cause`. -/
def envRunFails (name path cause : String) : Env :=
  ⟨fun n => if n = name then some path else none, fun _ _ => Except.error cause⟩

/-- Accumulator pass behind `wsTokens`: the maximal white-space-free runs of a
character list, in order. -/
def wsTokensAux : List Char → List Char → List (List Char)
  | [], acc => if acc.isEmpty then [] else [acc.reverse]
  | c :: cs, acc =>
    if goIsSpace c then
      if acc.isEmpty then wsTokensAux cs [] else acc.reverse :: wsTokensAux cs []
    else wsTokensAux cs (c :: acc)

/-- Modelled from the spec's words, not from the code: the white-space-separated
tokens of a string (the semantics of Go `strings.Fields`), used to state what
"whitespace-separated tokens" means in the Python-parsing claim. -/
def wsTokens (s : String) : List String :=
  (wsTokensAux s.data []).map String.mk

/-- Whether `p` occurs at the head of `l`. -/
def startsWithChars : List Char → List Char → Bool
  | [], _ => true
  | _ :: _, [] => false
  | a :: as, b :: bs => (a == b) && startsWithChars as bs

/-- Scan of the haystack suffixes behind `containsStr`. -/
def containsChars (n : List Char) : List Char → Bool
  | [] => startsWithChars n []
  | c :: rest => startsWithChars n (c :: rest) || containsChars n rest

/-- Modelled from the spec's words, not from the code: whether `needle` occurs
as a contiguous substring of `hay`, used to state what an error message
"naming" a string means. -/
def containsStr (needle hay : String) : Bool :=
  containsChars needle.data hay.data

/-- The value of a string of decimal digits. -/
def digitsToNat (l : List Char) : Nat :=
  l.foldl (fun n c => n * 10 + (c.toNat - 48)) 0

/-- The dotted-numeric release number at the head of a version label:
`"3.12.1 (Latest)"` is keyed as `[3, 12, 1]`.  This orders labels by the
recency the catalog claims for them. -/
def versionKey (label : String) : List Nat :=
  (splitCh '.' (label.data.takeWhile (fun c => !(c == ' ')))).map digitsToNat

/-- Lexicographic strict order on release numbers, a shorter number reading as
older when it is a proper head of the other. -/
def verLess : List Nat → List Nat → Bool
  | [], [] => false
  | [], _ :: _ => true
  | _ :: _, [] => false
  | a :: as, b :: bs => if a < b then true else if b < a then false else verLess as bs

/-- Every adjacent pair of labels is strictly more recent on the left. -/
def descendingByRecency : List String → Bool
  | [] => true
  | [_] => true
  | a :: b :: rest => verLess (versionKey b) (versionKey a) && descendingByRecency (b :: rest)

lemma startsWithChars_refl : ∀ l : List Char, startsWithChars l l = true := by
  intro l
  induction l with
  | nil => rfl
  | cons c cs ih => simp [startsWithChars, ih]

lemma containsChars_append : ∀ p l : List Char, containsChars l (p ++ l) = true := by
  intro p l
  induction p with
  | nil =>
    cases l with
    | nil => rfl
    | cons c cs => simp [containsChars, startsWithChars_refl]
  | cons q qs ih => simp [containsChars, ih]

lemma containsStr_append (p x : String) : containsStr x (p ++ x) = true := by
  show containsChars x.data (p ++ x).data = true
  rw [String.data_append]
  exact containsChars_append _ _

/-- C8: label normalization — stripping the decorative suffix — is idempotent:
normalizing twice is the same as normalizing once, for every string. -/
theorem normalize_idempotent :
    ∀ x : String, probeNormalize (probeNormalize x) = probeNormalize x :=
  probeNormalize_idem

/-- C7: the prober, the version catalog and the editor catalog normalize a
label with the same function, and consequently both catalog lookups key off
exactly the name the prober probes: looking up the normalized label changes
nothing. -/
theorem normalizers_agree :
    ∀ s : String,
      probeNormalize s = versionsNormalize s ∧
      probeNormalize s = editorsNormalize s ∧
      getAvailableVersions s = getAvailableVersions (probeNormalize s) ∧
      getLanguageEditors s = getLanguageEditors (probeNormalize s) := by
  intro s
  refine ⟨rfl, rfl, ?_, ?_⟩
  · have h : versionsNormalize (probeNormalize s) = versionsNormalize s :=
      probeNormalize_idem s
    simp only [getAvailableVersions, h]
  · have h : editorsNormalize (probeNormalize s) = editorsNormalize s :=
      probeNormalize_idem s
    simp only [getLanguageEditors, h]

/-- C10: normalization is total — splitting on spaces always yields at least
one field, so taking field 0 cannot fail — and the prober, the version
catalog and the editor catalog are all defined on every string, the empty
string and labels starting with a space included. -/
theorem normalization_total :
    (∀ s : String, goSplitSpace s ≠ [] ∧
      ∃ h : 0 < (goSplitSpace s).length,
        probeNormalize s = (goSplitSpace s).get ⟨0, h⟩) ∧
    probeNormalize "" = "" ∧
    probeNormalize " Python" = "" ∧
    getAvailableVersions "" = [] ∧
    getLanguageEditors "" = baseEditors ∧
    (getLanguageVersion envAbsent "").err =
      some (ProbeError.unsupportedLanguage "unsupported language: ") := by
  refine ⟨?_, rfl, rfl, rfl, rfl, rfl⟩
  intro s
  obtain ⟨r, hr⟩ := splitCh_head_takeWhile ' ' s.data
  have hg : goSplitSpace s =
      String.mk (s.data.takeWhile (fun c => !(c == ' '))) :: r.map String.mk := by
    simp [goSplitSpace, hr]
  refine ⟨by simp [hg], ?_⟩
  rw [hg]
  refine ⟨by simp, ?_⟩
  rw [probeNormalize_eq_takeWhile]
  simp

/-- C2: whenever the normalized label maps to one of the five version-check
commands but the executable does not resolve on the search path, the probe
returns the NotFound error with empty version and path, and no child process
is spawned (the ghost flag stays false: `cmd.Run` is never reached). -/
theorem probe_notFound_no_spawn :
    ∀ (env : Env) (language name : String) (args : List String),
      versionCommand (probeNormalize language) = some (name, args) →
      env.lookPath name = none →
      getLanguageVersion env language =
        ⟨"", "", some (ProbeError.notFound "not found in PATH"), false⟩ := by
  intro env language name args hcmd hpath
  simp [getLanguageVersion, hcmd, hpath]

/-- C2 witness: probing Go on an environment with an empty search path. -/
theorem probe_notFound_no_spawn_witness :
    getLanguageVersion envAbsent "Go 🚀" =
      ⟨"", "", some (ProbeError.notFound "not found in PATH"), false⟩ :=
  probe_notFound_no_spawn envAbsent "Go 🚀" "go" ["version"] (by decide) rfl

/-- C3: a probe that fails — for any of the three error kinds — makes the
note report that no installation exists, leaves the session's current-version
and path fields exactly as they were, and itself carries empty version and
path; the note function returns normally, so the session continues. -/
theorem probe_error_nonfatal :
    ∀ (env : Env) (language : String) (st : LangState) (e : ProbeError),
      (getLanguageVersion env language).err = some e →
      versionNoteTitle env language st = (st, noInstallMsg) ∧
      (getLanguageVersion env language).version = "" ∧
      (getLanguageVersion env language).path = "" := by
  intro env language st e herr
  refine ⟨by simp [versionNoteTitle, herr], ?_⟩
  rcases hv : versionCommand (probeNormalize language) with _ | ⟨name, args⟩
  · simp [getLanguageVersion, hv]
  · rcases hp : env.lookPath name with _ | path
    · simp [getLanguageVersion, hv, hp]
    · rcases hrun : env.run name args with cause | out
      · simp [getLanguageVersion, hv, hp, hrun]
      · exfalso
        simp [getLanguageVersion, hv, hp, hrun] at herr

/-- C3 witness: an absent Go toolchain leaves a fresh session untouched. -/
theorem probe_error_nonfatal_witness :
    versionNoteTitle envAbsent "Go 🚀" ⟨"", ""⟩ = (⟨"", ""⟩, noInstallMsg) ∧
    (getLanguageVersion envAbsent "Go 🚀").version = "" ∧
    (getLanguageVersion envAbsent "Go 🚀").path = "" :=
  probe_error_nonfatal envAbsent "Go 🚀" ⟨"", ""⟩
    (ProbeError.notFound "not found in PATH") rfl

/-- C9 counterexample: probing the label "Perl 🐪" fails with the
UnsupportedLanguage message "unsupported language: Perl", which does not
contain the input label — the message names only the normalized name. -/
theorem unsupported_names_input_counterexample :
    (getLanguageVersion envAbsent "Perl 🐪").err =
      some (ProbeError.unsupportedLanguage "unsupported language: Perl") ∧
    containsStr "Perl 🐪" "unsupported language: Perl" = false :=
  ⟨rfl, by decide⟩

/-- C9 (amended): for every label whose normalized name is not one of the
five supported languages, the probe fails with an UnsupportedLanguage error
whose message names the normalized input, returns empty version and path, and
spawns nothing. -/
theorem unsupported_language_error :
    ∀ (env : Env) (language : String),
      probeNormalize language ∉ supportedLanguages →
      getLanguageVersion env language =
        ⟨"", "",
          some (ProbeError.unsupportedLanguage
            ("unsupported language: " ++ probeNormalize language)),
          false⟩ ∧
      containsStr (probeNormalize language)
        ("unsupported language: " ++ probeNormalize language) = true := by
  intro env language h
  have h1 : probeNormalize language ≠ "Python" := fun he => h (by rw [he]; decide)
  have h2 : probeNormalize language ≠ "JavaScript" := fun he => h (by rw [he]; decide)
  have h3 : probeNormalize language ≠ "Go" := fun he => h (by rw [he]; decide)
  have h4 : probeNormalize language ≠ "Rust" := fun he => h (by rw [he]; decide)
  have h5 : probeNormalize language ≠ "Java" := fun he => h (by rw [he]; decide)
  have hcmd : versionCommand (probeNormalize language) = none := by
    simp [versionCommand, h1, h2, h3, h4, h5]
  exact ⟨by simp [getLanguageVersion, hcmd], containsStr_append _ _⟩

/-- C9 witness: probing the unsupported label "Perl". -/
theorem unsupported_language_error_witness :
    getLanguageVersion envAbsent "Perl" =
      ⟨"", "", some (ProbeError.unsupportedLanguage "unsupported language: Perl"),
        false⟩ ∧
    containsStr "Perl" "unsupported language: Perl" = true := by
  have h := unsupported_language_error envAbsent "Perl" (by decide)
  simpa using h

/-- C4: for every label normalizing to one of the five supported languages,
the version catalog is non-empty, strictly descending in release recency and
free of duplicate labels; for every label normalizing to anything else, the
catalog is the empty list, not an error. -/
theorem available_versions_catalog :
    (∀ s : String, versionsNormalize s ∈ supportedLanguages →
       getAvailableVersions s ≠ [] ∧
       descendingByRecency (getAvailableVersions s) = true ∧
       (getAvailableVersions s).Nodup) ∧
    (∀ s : String, versionsNormalize s ∉ supportedLanguages →
       getAvailableVersions s = []) := by
  constructor
  · intro s hs
    simp only [supportedLanguages, List.mem_cons, List.mem_singleton,
      List.not_mem_nil, or_false] at hs
    rcases hs with h | h | h | h | h <;> simp [getAvailableVersions, h] <;> decide
  · intro s hs
    have h1 : versionsNormalize s ≠ "Python" := fun he => hs (by rw [he]; decide)
    have h2 : versionsNormalize s ≠ "JavaScript" := fun he => hs (by rw [he]; decide)
    have h3 : versionsNormalize s ≠ "Go" := fun he => hs (by rw [he]; decide)
    have h4 : versionsNormalize s ≠ "Rust" := fun he => hs (by rw [he]; decide)
    have h5 : versionsNormalize s ≠ "Java" := fun he => hs (by rw [he]; decide)
    simp [getAvailableVersions, h1, h2, h3, h4, h5]

/-- C4 witness: the Go catalog is non-empty, the COBOL catalog empty. -/
theorem available_versions_catalog_witness :
    getAvailableVersions "Go 🚀" ≠ [] ∧ getAvailableVersions "COBOL" = [] :=
  ⟨(available_versions_catalog.1 "Go 🚀" (by decide)).1,
    available_versions_catalog.2 "COBOL" (by decide)⟩

/-- C5: every label's editor list starts with the three base editors in their
fixed order, the first pre-selected; a label normalizing to Python, Go,
JavaScript or Java gets exactly one language-specific editor appended; every
other label — Rust included — gets exactly the base list. -/
theorem editor_catalog :
    (baseEditors.map EditorOption.selected = [true, false, false]) ∧
    (∀ s : String, (getLanguageEditors s).take 3 = baseEditors) ∧
    (∀ s : String,
       editorsNormalize s ∈ (["Python", "Go", "JavaScript", "Java"] : List String) →
       ∃ e : EditorOption, getLanguageEditors s = baseEditors ++ [e]) ∧
    (∀ s : String,
       editorsNormalize s ∉ (["Python", "Go", "JavaScript", "Java"] : List String) →
       getLanguageEditors s = baseEditors) := by
  refine ⟨by decide, ?_, ?_, ?_⟩
  · intro s
    simp only [getLanguageEditors]
    split
    · decide
    · split
      · decide
      · split
        · decide
        · split
          · decide
          · decide
  · intro s hs
    simp only [List.mem_cons, List.mem_singleton, List.not_mem_nil, or_false] at hs
    rcases hs with h | h | h | h
    · exact ⟨⟨"PyCharm 🐍", "PyCharm", false⟩, by simp [getLanguageEditors, h]⟩
    · exact ⟨⟨"GoLand 🎯", "GoLand", false⟩, by simp [getLanguageEditors, h]⟩
    · exact ⟨⟨"WebStorm 🌐", "WebStorm", false⟩, by simp [getLanguageEditors, h]⟩
    · exact ⟨⟨"IntelliJ IDEA ☕", "IntelliJ IDEA", false⟩, by simp [getLanguageEditors, h]⟩
  · intro s hs
    have h1 : editorsNormalize s ≠ "Python" := fun he => hs (by rw [he]; decide)
    have h2 : editorsNormalize s ≠ "Go" := fun he => hs (by rw [he]; decide)
    have h3 : editorsNormalize s ≠ "JavaScript" := fun he => hs (by rw [he]; decide)
    have h4 : editorsNormalize s ≠ "Java" := fun he => hs (by rw [he]; decide)
    simp [getLanguageEditors, h1, h2, h3, h4]

/-- C5 witness: Python gets one appended editor, Rust exactly the base list. -/
theorem editor_catalog_witness :
    (∃ e : EditorOption, getLanguageEditors "Python 🐍" = baseEditors ++ [e]) ∧
    getLanguageEditors "Rust 🦀" = baseEditors :=
  ⟨editor_catalog.2.2.1 "Python 🐍" (by decide),
    editor_catalog.2.2.2 "Rust 🦀" (by decide)⟩

lemma getLanguageVersion_success (env : Env)
    (language name path out : String) (args : List String)
    (hcmd : versionCommand (probeNormalize language) = some (name, args))
    (hp : env.lookPath name = some path)
    (hrun : env.run name args = Except.ok out) :
    getLanguageVersion env language =
      ⟨(if probeNormalize language = "Python" then
          (if (goSplitSpace (goTrimSpace out)).length ≥ 2 then
            (goSplitSpace (goTrimSpace out))[1]!
          else goTrimSpace out)
        else if probeNormalize language = "JavaScript" then
          goStripLeadingV (goTrimSpace out)
        else goTrimSpace out),
        path, none, true⟩ := by
  simp [getLanguageVersion, hcmd, hp, hrun]

/-- C1 counterexample: a successful Python probe whose stdout is
"Python  3.11.2" (two spaces) has at least two white-space-separated tokens
in its trimmed output, the second being "3.11.2", yet the probe stores "" as
the version — the code indexes the space-split fields, where the second field
is empty. -/
theorem python_second_token_counterexample :
    (wsTokens (goTrimSpace "Python  3.11.2\n")).length ≥ 2 ∧
    (wsTokens (goTrimSpace "Python  3.11.2\n"))[1]! = "3.11.2" ∧
    (getLanguageVersion (envRuns "python3" "/usr/bin/python3" "Python  3.11.2\n")
      "Python 🐍").err = none ∧
    (getLanguageVersion (envRuns "python3" "/usr/bin/python3" "Python  3.11.2\n")
      "Python 🐍").version = "" ∧
    (getLanguageVersion (envRuns "python3" "/usr/bin/python3" "Python  3.11.2\n")
        "Python 🐍").version ≠
      (wsTokens (goTrimSpace "Python  3.11.2\n"))[1]! :=
  ⟨by decide, by decide, rfl, rfl, by decide⟩

/-- C1 (amended): for every successful Python probe, the captured stdout is
trimmed of surrounding white space and split on single space characters
(empty fields counted); when the split yields at least two fields the second
field is returned as the version, and otherwise the trimmed output is
returned unchanged. -/
theorem python_version_parsing :
    ∀ (env : Env) (language path out : String),
      probeNormalize language = "Python" →
      env.lookPath "python3" = some path →
      env.run "python3" ["--version"] = Except.ok out →
      (getLanguageVersion env language).err = none ∧
      ((goSplitSpace (goTrimSpace out)).length ≥ 2 →
        (getLanguageVersion env language).version =
          (goSplitSpace (goTrimSpace out))[1]!) ∧
      ((goSplitSpace (goTrimSpace out)).length < 2 →
        (getLanguageVersion env language).version = goTrimSpace out) := by
  intro env language path out hn hp hrun
  have hcmd : versionCommand (probeNormalize language) =
      some ("python3", ["--version"]) := by rw [hn]; rfl
  rw [getLanguageVersion_success env language "python3" path out ["--version"]
    hcmd hp hrun]
  rw [hn]
  refine ⟨rfl, ?_, ?_⟩
  · intro hlen
    simp [hlen]
  · intro hlen
    have hlt : ¬ (goSplitSpace (goTrimSpace out)).length ≥ 2 := by omega
    simp [hlt]

/-- C1 witness: "Python 3.11.2\n" parses to "3.11.2"; the single token
"Python" is returned unchanged. -/
theorem python_version_parsing_witness :
    (getLanguageVersion (envRuns "python3" "/usr/bin/python3" "Python 3.11.2\n")
      "Python 🐍").version = "3.11.2" ∧
    (getLanguageVersion (envRuns "python3" "/usr/bin/python3" "Python")
      "Python 🐍").version = "Python" := by
  constructor
  · have h := (python_version_parsing
        (envRuns "python3" "/usr/bin/python3" "Python 3.11.2\n") "Python 🐍"
        "/usr/bin/python3" "Python 3.11.2\n" (by decide) rfl rfl).2.1 (by decide)
    rw [h]
    decide
  · have h := (python_version_parsing
        (envRuns "python3" "/usr/bin/python3" "Python") "Python 🐍"
        "/usr/bin/python3" "Python" (by decide) rfl rfl).2.2 (by decide)
    rw [h]
    decide

/-- C6: for every successful JavaScript probe, exactly one leading 'v' is
stripped from the trimmed stdout when one is present, and the trimmed stdout
is returned unchanged when its first character is not 'v'. -/
theorem javascript_version_parsing :
    ∀ (env : Env) (language path out : String),
      probeNormalize language = "JavaScript" →
      env.lookPath "node" = some path →
      env.run "node" ["--version"] = Except.ok out →
      (getLanguageVersion env language).err = none ∧
      (∀ rest : List Char, (goTrimSpace out).data = 'v' :: rest →
        (getLanguageVersion env language).version = ⟨rest⟩) ∧
      ((goTrimSpace out).data.head? ≠ some 'v' →
        (getLanguageVersion env language).version = goTrimSpace out) := by
  intro env language path out hn hp hrun
  have hcmd : versionCommand (probeNormalize language) =
      some ("node", ["--version"]) := by rw [hn]; rfl
  rw [getLanguageVersion_success env language "node" path out ["--version"]
    hcmd hp hrun]
  rw [hn]
  refine ⟨rfl, ?_, ?_⟩
  · intro rest hrest
    simp [goStripLeadingV, hrest]
  · intro hne
    cases hd : (goTrimSpace out).data with
    | nil => simp [goStripLeadingV, hd]
    | cons c cs =>
      have hc : c ≠ 'v' := by
        intro he
        exact hne (by rw [hd, he]; rfl)
      simp [goStripLeadingV, hd, hc]

/-- C6 witness: "v20.11.0\n" parses to "20.11.0"; "20.11.0" is unchanged. -/
theorem javascript_version_parsing_witness :
    (getLanguageVersion (envRuns "node" "/usr/bin/node" "v20.11.0\n")
      "JavaScript 💫").version = "20.11.0" ∧
    (getLanguageVersion (envRuns "node" "/usr/bin/node" "20.11.0")
      "JavaScript 💫").version = "20.11.0" := by
  constructor
  · have h := (javascript_version_parsing
        (envRuns "node" "/usr/bin/node" "v20.11.0\n") "JavaScript 💫"
        "/usr/bin/node" "v20.11.0\n" (by decide) rfl rfl).2.1
        "20.11.0".data (by decide)
    rw [h]
  · have h := (javascript_version_parsing
        (envRuns "node" "/usr/bin/node" "20.11.0") "JavaScript 💫"
        "/usr/bin/node" "20.11.0" (by decide) rfl rfl).2.2 (by decide)
    rw [h]
    decide
